import Mathlib

/-!
Verification of the grain-rpc RPC endpoint (lib/rpc.ts, lib/message.ts).

This file gives a shallow embedding of the parts of the `Rpc` class that the
verified properties are about, and proves the properties over it.

Conventions of the embedding:
* Message payload values are kept abstract as a type parameter `V`.
* JavaScript `Map` objects are modelled as insertion-ordered association
  lists; `Map.set` replaces an existing binding in place, `Map.delete`
  filters a binding out.
* The optional `mdest` field of an envelope is modelled as a `String` where
  `""` means "absent": the TypeScript code only ever tests `mdest` for
  truthiness, and the empty string is falsy, so an absent field and an empty
  string are observationally identical.
* Promises are modelled by their settled results: an implementation method is
  a function `List V → Except ErrorWithCode V`, where `Except.error` covers
  both a synchronous throw and an eventual rejection (the handler awaits the
  returned value before responding).
* A `ts-interface-checker` checker is modelled by its observable behaviour: a
  function returning `none` when `check` passes and `some message` when it
  throws a validation error carrying `message`.
* The endpoint's effects (messages handed to `_sendMessage`, warnings passed
  to the logger, promise resolutions/rejections, `"error"` events, re-thrown
  errors) are returned explicitly from the embedded handlers.  `_info`
  logging is elided; `_warn` logging is kept where a claim refers to it.
-/

namespace GrainRpc

deriving instance DecidableEq for Except

/-- Errors with an optional `code` field (class `ErrorWithCode` in rpc.ts).
A plain JavaScript `Error` is the case `code = none`. -/
structure ErrorWithCode where
  code : Option String
  message : String
deriving DecidableEq

/-- A ts-interface-checker `Checker` for values of type `α`, modelled by its
observable behaviour: `none` means `check` passed, `some m` means `check`
threw a validation error with message `m`. -/
def Checker (α : Type) : Type := α → Option String

/-- The `"any"` result checker (`anyChecker` in rpc.ts, the method result of
`tic.func("any")`): it accepts every value. -/
def anyChecker {α : Type} : Checker α := fun _ => none

/-- The argument checker `checkerAnyFunc.methodArgs("invoke")` derived from
`tic.func("any")`: the declared parameter list is empty and extra trailing
arguments are permitted by ts-interface-checker, so every argument tuple
passes. -/
def anyArgsChecker {V : Type} : Checker (List V) := fun _ => none

/-- An RPC call envelope (`IMsgRpcCall` in message.ts): `mtype = RpcCall`
with an optional request id, interface name, method name, argument tuple and
optional forward destination (`mdest`, `""` = absent). -/
structure IMsgRpcCall (V : Type) where
  reqId : Option Nat
  iface : String
  meth : String
  args : List V
  mdest : String
deriving DecidableEq

/-- The two RPC response envelopes (`IMsgRpcRespData` and `IMsgRpcRespErr`
in message.ts).  These are the only envelopes `_onMessageCall` ever sends. -/
inductive IMsgRpcResp (V : Type) where
  | respData (reqId : Nat) (data : V)
  | respErr (reqId : Nat) (mesg : String) (code : Option String)
deriving DecidableEq

/-- The request id a response envelope addresses. -/
def IMsgRpcResp.reqId {V : Type} : IMsgRpcResp V → Nat
  | .respData r _ => r
  | .respErr r _ _ => r

/-- A custom (non-RPC) envelope (`IMsgCustom` in message.ts) with an optional
forward destination (`mdest`, `""` = absent). -/
structure IMsgCustom (V : Type) where
  data : V
  mdest : String
deriving DecidableEq

/-- Any envelope that may travel over the channel (`IMessage` in
message.ts): a call, a response, a custom message, or the ready signal. -/
inductive IMessage (V : Type) where
  | rpcCall (c : IMsgRpcCall V)
  | rpcResp (r : IMsgRpcResp V)
  | custom (m : IMsgCustom V)
  | ready
deriving DecidableEq

/-- JavaScript `Map.set` on an insertion-ordered association list: replace
the binding in place when the key is present, else append a new binding. -/
def mapSet {α : Type} (m : List (Nat × α)) (k : Nat) (v : α) : List (Nat × α) :=
  if (m.lookup k).isSome then
    m.map (fun p => if p.1 = k then (k, v) else p)
  else
    m ++ [(k, v)]

/-- JavaScript `Map.delete` on an association list. -/
def mapDelete {α : Type} (m : List (Nat × α)) (k : Nat) : List (Nat × α) :=
  m.filter (fun p => ¬ p.1 = k)

/-- A pending-call record (`ICallObj` in rpc.ts).  Its `resolve`/`reject`
callbacks are not stored; the embedded handlers report the resolution as an
explicit outcome instead. -/
structure ICallObj (V : Type) where
  reqId : Nat
  iface : String
  meth : String
  resultChecker : Checker V

/-- An entry of `_implMap` (interface `Implementation` in rpc.ts):
`invokeImpl` produces the settled result of invoking the implementation, and
`argsCheckers` is `none` for an unchecked registration or the map from
method name to argument-tuple checker for a checked one. -/
structure Implementation (V : Type) where
  name : String
  invokeImpl : IMsgRpcCall V → Except ErrorWithCode V
  argsCheckers : Option (List (String × Checker (List V)))

/-- The peer of a forwarder (interface `IForwarderDest` in rpc.ts). -/
structure IForwarderDest (V : Type) where
  forwardCall : IMsgRpcCall V → Except ErrorWithCode V
  forwardMessage : IMsgCustom V → Except ErrorWithCode Unit

/-- An entry of `_forwarders` (interface `ImplementationFwd` in rpc.ts). -/
structure ImplementationFwd (V : Type) extends Implementation V where
  forwardMessage : IMsgCustom V → Except ErrorWithCode Unit

/-- The default value of `registerForwarder`'s `fwdDest` parameter:
`fwdName === "*" ? "*" : ""` (rpc.ts line 228). -/
def defaultFwdPolicy (fwdName : String) : String :=
  if fwdName = "*" then "*" else ""

/-- The forwarder record that `registerForwarder(fwdName, dest, fwdDest)`
installs into `_forwarders` (rpc.ts lines 227-236): calls and custom
messages are handed to `dest` with `mdest` replaced by the registered policy
`fwdDest`, except that the pass-through policy `"*"` keeps the envelope's
own `mdest`. -/
def registerForwarder {V : Type} (fwdName : String) (dest : IForwarderDest V)
    (fwdDest : String) : ImplementationFwd V :=
  let passThru := fwdDest = "*"
  { name := "[FWD]" ++ fwdName
    argsCheckers := none
    invokeImpl := fun c =>
      dest.forwardCall { c with mdest := if passThru then c.mdest else fwdDest }
    forwardMessage := fun msg =>
      dest.forwardMessage { msg with mdest := if passThru then msg.mdest else fwdDest } }

/-- The `invokeImpl` closure built by `registerImpl` (rpc.ts line 209):
`(call) => impl[call.meth](...call.args)`.  The implementation object is
modelled as its table of methods.  When the property `call.meth` is absent,
JavaScript evaluates `impl[call.meth]` to `undefined` and the call expression
throws a `TypeError` — a plain error with no `code` field. -/
def invokeMethod {V : Type} (methods : List (String × (List V → Except ErrorWithCode V)))
    (call : IMsgRpcCall V) : Except ErrorWithCode V :=
  match methods.lookup call.meth with
  | some f => f call.args
  | none => Except.error { code := none, message := "impl[call.meth] is not a function" }

/-- `registerImpl(name, impl)` without a checker (rpc.ts lines 210-211):
`argsCheckers` is `null`, so no call or argument checking happens. -/
def registerImplUnchecked {V : Type} (name : String)
    (methods : List (String × (List V → Except ErrorWithCode V))) : Implementation V :=
  { name, invokeImpl := invokeMethod methods, argsCheckers := none }

/-- `registerImpl(name, impl, checker)` with a checker (rpc.ts lines
212-224): `argsCheckers` maps each method-typed property of the interface
descriptor to `checker.methodArgs` for it. -/
def registerImplChecked {V : Type} (name : String)
    (methods : List (String × (List V → Except ErrorWithCode V)))
    (argsCheckers : List (String × Checker (List V))) : Implementation V :=
  { name, invokeImpl := invokeMethod methods, argsCheckers := some argsCheckers }

/-- `registerFunc(name, impl)` (rpc.ts lines 299-301): registers
`{invoke: impl}` under `name` with the `IAnyFunc` checker, whose single
method-typed property is `invoke` with the always-passing argument
checker. -/
def registerFunc {V : Type} (name : String)
    (impl : List V → Except ErrorWithCode V) : Implementation V :=
  registerImplChecked name [("invoke", impl)] [("invoke", anyArgsChecker)]

/-- The observable effects of handling one inbound call envelope: the
`(code, mesg)` pairs passed to `_warn` and the response envelopes handed to
`_sendMessage`. -/
structure CallEffects (V : Type) where
  warns : List (Option String × String)
  sent : List (IMsgRpcResp V)
deriving DecidableEq

/-- `_failCall(call, code, mesg, reportCode?)` (rpc.ts lines 471-477): warn
with `reportCode || code`, and send a `RespErr` envelope only when the call
carries a request id. -/
def failCall {V : Type} (call : IMsgRpcCall V) (code : Option String)
    (mesg : String) (reportCode : Option String) : CallEffects V :=
  { warns := [(reportCode <|> code, mesg)]
    sent :=
      match call.reqId with
      | some r => [IMsgRpcResp.respErr r mesg code]
      | none => [] }

/-- The tail of `_onMessageCall` after the forwarder/interface and
method/argument checks have passed (rpc.ts lines 457-468): fail with
`RPC_MISSING_REQID` when the request id is absent, else invoke the
implementation and answer with `RespData` on success or a `RespErr` carrying
the thrown error's `code` and `message` on failure. -/
def callAfterChecks {V : Type} (impl : Implementation V) (call : IMsgRpcCall V) :
    CallEffects V :=
  match call.reqId with
  | none => failCall call (some "RPC_MISSING_REQID") "Missing request id" none
  | some reqId =>
    match impl.invokeImpl call with
    | Except.error e => failCall call e.code e.message (some "RPC_ONCALL_ERROR")
    | Except.ok result => { warns := [], sent := [IMsgRpcResp.respData reqId result] }

/-- The method/argument checking step of `_onMessageCall` (rpc.ts lines
442-455): with no `argsCheckers` nothing is checked; otherwise an unknown
method fails with `RPC_UNKNOWN_METHOD` and a failing argument check with
`RPC_INVALID_ARGS` carrying the validator's message. -/
def checkAndInvoke {V : Type} (impl : Implementation V) (call : IMsgRpcCall V) :
    CallEffects V :=
  match impl.argsCheckers with
  | none => callAfterChecks impl call
  | some argsCheckers =>
    match argsCheckers.lookup call.meth with
    | none => failCall call (some "RPC_UNKNOWN_METHOD") "Unknown method" none
    | some argsChecker =>
      match argsChecker call.args with
      | some m => failCall call (some "RPC_INVALID_ARGS") ("Invalid args: " ++ m) none
      | none => callAfterChecks impl call

/-- `_onMessageCall` (rpc.ts lines 428-469): when `mdest` is set, select the
forwarder registered under that exact name, falling back to the wildcard
`"*"`, failing with `RPC_UNKNOWN_FORWARD_DEST` when neither exists; when
`mdest` is unset, select the implementation registered under `iface`,
failing with `RPC_UNKNOWN_INTERFACE` on a miss; then check and invoke. -/
def onMessageCall {V : Type} (forwarders : List (String × ImplementationFwd V))
    (implMap : List (String × Implementation V)) (call : IMsgRpcCall V) :
    CallEffects V :=
  if call.mdest ≠ "" then
    match (forwarders.lookup call.mdest).orElse (fun _ => forwarders.lookup "*") with
    | none => failCall call (some "RPC_UNKNOWN_FORWARD_DEST") "Unknown forward destination" none
    | some fwd => checkAndInvoke fwd.toImplementation call
  else
    match implMap.lookup call.iface with
    | none => failCall call (some "RPC_UNKNOWN_INTERFACE") "Unknown interface" none
    | some impl => checkAndInvoke impl call

/-- The observable effect of `_onCustomMessage` (rpc.ts lines 415-426). -/
inductive CustomEffect (V : Type) where
  | forwarded (result : Except ErrorWithCode Unit)
  | warned (code : String) (mesg : String)
  | emitted (data : V)

/-- `_onCustomMessage` (rpc.ts lines 415-426): with `mdest` set, select a
forwarder exactly as `_onMessageCall` does and hand it the message; with no
match, warn `RPC_UNKNOWN_FORWARD_DEST`; with `mdest` unset, emit a
`"message"` event carrying `data`. -/
def onCustomMessage {V : Type} (forwarders : List (String × ImplementationFwd V))
    (msg : IMsgCustom V) : CustomEffect V :=
  if msg.mdest ≠ "" then
    match (forwarders.lookup msg.mdest).orElse (fun _ => forwarders.lookup "*") with
    | none => CustomEffect.warned "RPC_UNKNOWN_FORWARD_DEST" "Unknown forward destination"
    | some impl => CustomEffect.forwarded (impl.forwardMessage msg)
  else
    CustomEffect.emitted msg.data

/-- The fate of the caller's future decided by `_onMessageResp`. -/
inductive RespOutcome (V : Type) where
  | resolved (data : V)
  | rejected (e : ErrorWithCode)
  | unknownReqId
deriving DecidableEq

/-- The observable effects of `_onMessageResp`: the updated pending-call
table, the resolution of the matching future, and the envelopes handed to
`_sendMessage` (none: the source of `_onMessageResp` contains no send). -/
structure RespEffects (V : Type) where
  pending : List (Nat × ICallObj V)
  outcome : RespOutcome V
  sent : List (IMsgRpcResp V)

/-- `_onMessageResp` (rpc.ts lines 484-504): remove the entry for `reqId`
from the pending table; with no entry warn `RPC_UNKNOWN_REQID` and drop; on
`RespErr` reject with an `ErrorWithCode` carrying the received `code` and
`mesg`; on `RespData` run the pending call's result checker — reject with
`RPC_INVALID_RESULT` wrapping the validator's message on failure, resolve
with the received data on success.  No message is ever sent in reaction. -/
def onMessageResp {V : Type} (pending : List (Nat × ICallObj V))
    (resp : IMsgRpcResp V) : RespEffects V :=
  let callObjOpt := pending.lookup resp.reqId
  let pendingAfter := mapDelete pending resp.reqId
  match callObjOpt with
  | none => { pending := pendingAfter, outcome := RespOutcome.unknownReqId, sent := [] }
  | some callObj =>
    match resp with
    | IMsgRpcResp.respErr _ mesg code =>
      { pending := pendingAfter
        outcome := RespOutcome.rejected { code := code, message := mesg }
        sent := [] }
    | IMsgRpcResp.respData _ data =>
      match callObj.resultChecker data with
      | some m =>
        { pending := pendingAfter
          outcome := RespOutcome.rejected
            { code := some "RPC_INVALID_RESULT"
              message := "Implementation produced invalid result: " ++ m }
          sent := [] }
      | none =>
        { pending := pendingAfter, outcome := RespOutcome.resolved data, sent := [] }

/-- The interface/forwarder split of a name (`IForwardingName` in rpc.ts). -/
structure IForwardingName where
  forwarder : String
  name : String
deriving DecidableEq

/-- `String.prototype.lastIndexOf` specialised to a single character,
on the character list of the string: the index of the last occurrence, or
`none` when the character does not occur. -/
def lastIndexOfChar (c : Char) : List Char → Option Nat
  | [] => none
  | x :: xs =>
    match lastIndexOfChar c xs with
    | some i => some (i + 1)
    | none => if x = c then some 0 else none

/-- The core of `_parseName` on character lists: split at the last `'@'`
into `(interface name, forwarder)`; with no `'@'` the forwarder is empty. -/
def parseNameChars (cs : List Char) : List Char × List Char :=
  match lastIndexOfChar '@' cs with
  | none => (cs, [])
  | some idx => (cs.take idx, cs.drop (idx + 1))

/-- `_parseName(name)` (rpc.ts lines 524-536): `idx = name.lastIndexOf("@")`;
with `idx === -1` the whole string is the interface name and the forwarder is
`""`; otherwise the interface name is `name.substr(0, idx)` and the
forwarder is `name.substr(idx + 1)`. -/
def parseName (name : String) : IForwardingName :=
  let p := parseNameChars name.data
  { forwarder := String.mk p.2, name := String.mk p.1 }

/-- The call envelope composed by `_makeCallRaw` (rpc.ts lines 388-389):
`{mtype: RpcCall, reqId, iface, meth, args}`, with `mdest` set to `fwdDest`
when the latter is non-empty (and `""` = absent otherwise). -/
def makeCallMsg {V : Type} (iface meth : String) (args : List V) (reqId : Nat)
    (fwdDest : String) : IMsgRpcCall V :=
  { reqId := some reqId, iface, meth, args, mdest := fwdDest }

/-- The pending-call record `_makeCallRaw` stores for a new call. -/
def mkCallObj {V : Type} (reqId : Nat) (iface meth : String)
    (resultChecker : Checker V) : ICallObj V :=
  { reqId, iface, meth, resultChecker }

/-- The call envelope produced by `callRemoteFunc(name, ...args)` (rpc.ts
lines 313-320): parse `name` into interface and forwarder parts, then make a
call of method `"invoke"` on the parsed interface via the parsed
forwarder. -/
def callRemoteFuncMsg {V : Type} (name : String) (args : List V) (reqId : Nat) :
    IMsgRpcCall V :=
  let parts := parseName name
  makeCallMsg parts.name "invoke" args reqId parts.forwarder

/-- One complete round trip of `callRemoteFunc(name, ...args)` against a
peer on which `registerFunc(name, f)` was called, with live channels and no
forwarders: the responder handles the composed call envelope, and the caller
feeds every response the responder sent through `_onMessageResp` with the
pending table `_makeCallRaw` left behind.  The result lists the fate of the
caller's future for each response received. -/
def roundTripOutcomes {V : Type} (name : String)
    (f : List V → Except ErrorWithCode V) (args : List V) (reqId : Nat) :
    List (RespOutcome V) :=
  let msg := callRemoteFuncMsg name args reqId
  let effects := onMessageCall [] [(name, registerFunc name f)] msg
  let pending := [(reqId, mkCallObj reqId (parseName name).name "invoke" anyChecker)]
  effects.sent.map (fun resp => (onMessageResp pending resp).outcome)

/-- The possible fates of one invocation of the user's send function: it may
return normally (or return a promise that fulfills), throw synchronously, or
return a promise that rejects. -/
inductive SendOutcome where
  | ok
  | syncThrow (err : ErrorWithCode)
  | asyncReject (err : ErrorWithCode)

/-- `catchMaybePromise(callback, handler)` (rpc.ts lines 613-622): run the
callback; on a synchronous throw run the handler on the thrown error, and on
a returned promise attach the handler as its rejection handler — so both
failure modes reach the same handler. -/
def catchMaybePromise {α : Type} (callback : SendOutcome)
    (handler : ErrorWithCode → α) (onOk : α) : α :=
  match callback with
  | SendOutcome.ok => onOk
  | SendOutcome.syncThrow err => handler err
  | SendOutcome.asyncReject err => handler err

/-- The observable effects of `_sendReject`: the updated pending-call table,
the rejection of a pending call when one was found, the error emitted as an
`"error"` event, and the error re-thrown out of the send site. -/
structure SendRejectEffects (V : Type) where
  pending : List (Nat × ICallObj V)
  rejectedCall : Option (Nat × ErrorWithCode)
  emitted : ErrorWithCode
  thrown : ErrorWithCode

/-- `_sendReject(msg, err)` (rpc.ts lines 365-376): build an error with code
`RPC_SEND_FAILED` wrapping the underlying error's message; when the failed
envelope was an `RpcCall` with a request id whose pending record is still
present, delete that record and reject the call with the new error; always
emit an `"error"` event with it and re-throw it. -/
def sendReject {V : Type} (pending : List (Nat × ICallObj V)) (msg : IMessage V)
    (err : ErrorWithCode) : SendRejectEffects V :=
  let newErr : ErrorWithCode :=
    { code := some "RPC_SEND_FAILED", message := "Send failed: " ++ err.message }
  let withCall : List (Nat × ICallObj V) × Option (Nat × ErrorWithCode) :=
    match msg with
    | IMessage.rpcCall c =>
      match c.reqId with
      | some reqId =>
        match pending.lookup reqId with
        | some _ => (mapDelete pending reqId, some (reqId, newErr))
        | none => (pending, none)
      | none => (pending, none)
    | _ => (pending, none)
  { pending := withCall.1, rejectedCall := withCall.2, emitted := newErr, thrown := newErr }

/-- The observable effects of `_sendMessageOrReject`: as `SendRejectEffects`,
but the emitted and thrown errors are absent when the send succeeded. -/
structure SendEffects (V : Type) where
  pending : List (Nat × ICallObj V)
  rejectedCall : Option (Nat × ErrorWithCode)
  emitted : Option ErrorWithCode
  thrown : Option ErrorWithCode

/-- `_sendMessageOrReject(sendMessage, msg)` (rpc.ts lines 356-362): call
the user's send function through `catchMaybePromise` with `_sendReject` as
the error handler, so a synchronous throw and a rejected promise are handled
identically. -/
def sendMessageOrReject {V : Type} (pending : List (Nat × ICallObj V))
    (msg : IMessage V) (outcome : SendOutcome) : SendEffects V :=
  catchMaybePromise outcome
    (fun err =>
      let e := sendReject pending msg err
      { pending := e.pending, rejectedCall := e.rejectedCall
        emitted := some e.emitted, thrown := some e.thrown })
    { pending := pending, rejectedCall := none, emitted := none, thrown := none }

/-- `processQueue(queue, processFunc)` (rpc.ts lines 594-605): dispatch the
queued envelopes in order, reading and advancing the index BEFORE each
dispatch; the `finally` block splices off every envelope whose dispatch was
started, so a throwing envelope is consumed and not retried.  The result is
the remaining queue and the error the drain re-threw, if any. -/
def processQueue {Msg ε : Type} (processFunc : Msg → Except ε Unit) :
    List Msg → List Msg × Option ε
  | [] => ([], none)
  | m :: rest =>
    match processFunc m with
    | Except.ok _ => processQueue processFunc rest
    | Except.error e => (rest, some e)

/-- The per-endpoint state that `_makeCallRaw` and the response/send-failure
paths touch: the request-id counter and the pending-call table. -/
structure RpcState (V : Type) where
  nextRequestId : Nat
  pendingCalls : List (Nat × ICallObj V)

/-- A freshly constructed endpoint: `_nextRequestId = 1` and an empty
pending-call table (rpc.ts lines 105-106). -/
def initialRpcState (V : Type) : RpcState V :=
  { nextRequestId := 1, pendingCalls := [] }

/-- `_makeCallRaw` (rpc.ts lines 378-394), restricted to its effect on the
endpoint state: allocate `reqId = _nextRequestId++` and store the
pending-call record under it.  Returns the new state and the allocated
request id. -/
def makeCallRaw {V : Type} (s : RpcState V) (iface meth : String)
    (resultChecker : Checker V) : RpcState V × Nat :=
  let reqId := s.nextRequestId
  ({ nextRequestId := reqId + 1
     pendingCalls := mapSet s.pendingCalls reqId (mkCallObj reqId iface meth resultChecker) },
   reqId)

/-- The operations of one endpoint that touch the pending-call table: making
an outgoing call, receiving a response envelope, and a send failure. -/
inductive RpcOp (V : Type) where
  | makeCall (iface meth : String) (resultChecker : Checker V)
  | receiveResp (resp : IMsgRpcResp V)
  | sendFail (msg : IMessage V) (err : ErrorWithCode)

/-- The state transition of one endpoint operation. -/
def stepOp {V : Type} (s : RpcState V) : RpcOp V → RpcState V
  | RpcOp.makeCall iface meth c => (makeCallRaw s iface meth c).1
  | RpcOp.receiveResp resp =>
    { s with pendingCalls := (onMessageResp s.pendingCalls resp).pending }
  | RpcOp.sendFail msg err =>
    { s with pendingCalls := (sendReject s.pendingCalls msg err).pending }

/-- An endpoint's state after a sequence of operations from construction. -/
def applyOps {V : Type} (ops : List (RpcOp V)) : RpcState V :=
  ops.foldl stepOp (initialRpcState V)

/-- The request ids present in a pending-call table. -/
def pendingKeys {V : Type} (pending : List (Nat × ICallObj V)) : List Nat :=
  pending.map Prod.fst

/-- The state invariant behind unique request ids: every pending request id
is below the counter, and no id occurs twice in the table. -/
def StateInv {V : Type} (s : RpcState V) : Prop :=
  (∀ k ∈ s.pendingCalls.map Prod.fst, k < s.nextRequestId)
  ∧ (s.pendingCalls.map Prod.fst).Nodup


/-! ### Helper lemmas -/

theorem lookup_eq_none_of_not_mem_keys {α : Type} {m : List (Nat × α)} {k : Nat}
    (h : k ∉ m.map Prod.fst) : m.lookup k = none := by
  induction m with
  | nil => rfl
  | cons p t ih =>
    have hk : ¬ k = p.1 := fun hkp => h (by simp [hkp])
    have ht : k ∉ t.map Prod.fst := fun hm => h (by simp [hm])
    simp [List.lookup, beq_false_of_ne hk, ih ht]

theorem mapSet_fresh {α : Type} {m : List (Nat × α)} {k : Nat} (v : α)
    (h : m.lookup k = none) : mapSet m k v = m ++ [(k, v)] := by
  simp [mapSet, h]

theorem onMessageResp_pending {V : Type} (pending : List (Nat × ICallObj V))
    (resp : IMsgRpcResp V) :
    (onMessageResp pending resp).pending = mapDelete pending resp.reqId := by
  rcases hl : pending.lookup resp.reqId with _ | callObj
  · simp [onMessageResp, hl]
  · rcases resp with ⟨r, data⟩ | ⟨r, mesg, code⟩
    · rcases hc : callObj.resultChecker data with _ | m <;> simp [onMessageResp, hl, hc]
    · simp [onMessageResp, hl]

theorem sendReject_pending_sublist {V : Type} (pending : List (Nat × ICallObj V))
    (msg : IMessage V) (err : ErrorWithCode) :
    ((sendReject pending msg err).pending.map Prod.fst).Sublist (pending.map Prod.fst) := by
  rcases msg with c | r | m | _
  case rpcCall =>
    rcases hr : c.reqId with _ | reqId
    · simp only [sendReject, hr]
      exact List.Sublist.refl _
    · rcases hl : pending.lookup reqId with _ | co
      · simp only [sendReject, hr, hl]
        exact List.Sublist.refl _
      · simp only [sendReject, hr, hl, mapDelete]
        exact (List.filter_sublist pending).map Prod.fst
  all_goals simp only [sendReject]
  all_goals exact List.Sublist.refl _

theorem stateInv_of_sublist {V : Type} (s t : RpcState V)
    (hsub : (t.pendingCalls.map Prod.fst).Sublist (s.pendingCalls.map Prod.fst))
    (hn : s.nextRequestId ≤ t.nextRequestId) (h : StateInv s) : StateInv t :=
  ⟨fun k hk => lt_of_lt_of_le (h.1 k (hsub.subset hk)) hn, h.2.sublist hsub⟩

theorem stepOp_preserves_inv {V : Type} {s : RpcState V} (op : RpcOp V)
    (h : StateInv s) : StateInv (stepOp s op) := by
  cases op with
  | makeCall iface meth c =>
    have hfresh : s.nextRequestId ∉ s.pendingCalls.map Prod.fst := fun hmem =>
      absurd (h.1 _ hmem) (lt_irrefl _)
    have hnone := lookup_eq_none_of_not_mem_keys hfresh
    have hkeys : ((stepOp s (RpcOp.makeCall iface meth c)).pendingCalls.map Prod.fst)
        = s.pendingCalls.map Prod.fst ++ [s.nextRequestId] := by
      simp [stepOp, makeCallRaw, mapSet_fresh _ hnone]
    constructor
    · intro k hk
      rw [hkeys] at hk
      rcases List.mem_append.mp hk with hk | hk
      · exact Nat.lt_succ_of_lt (h.1 k hk)
      · simp at hk
        simp [stepOp, makeCallRaw, hk]
    · rw [hkeys, List.nodup_append]
      exact ⟨h.2, List.nodup_singleton _, fun a ha hb => hfresh (by simpa [List.mem_singleton.mp hb] using ha)⟩
  | receiveResp resp =>
    refine stateInv_of_sublist s _ ?_ (le_refl _) h
    simp only [stepOp, onMessageResp_pending, mapDelete]
    exact (List.filter_sublist _).map Prod.fst
  | sendFail msg err =>
    exact stateInv_of_sublist s _ (sendReject_pending_sublist _ _ _) (le_refl _) h

theorem applyOps_inv {V : Type} (ops : List (RpcOp V)) :
    StateInv (applyOps ops) := by
  have main : ∀ (l : List (RpcOp V)) (s : RpcState V), StateInv s → StateInv (l.foldl stepOp s) := by
    intro l
    induction l with
    | nil => exact fun s hs => hs
    | cons op t ih => exact fun s hs => ih _ (stepOp_preserves_inv op hs)
  refine main ops (initialRpcState V) ?_
  exact ⟨by simp [initialRpcState], by simp [initialRpcState]⟩

theorem lastIndexOfChar_eq_none {c : Char} {xs : List Char} (h : c ∉ xs) :
    lastIndexOfChar c xs = none := by
  induction xs with
  | nil => rfl
  | cons x xs ih =>
    have hx : ¬ x = c := fun hxc => h (hxc ▸ List.mem_cons_self x xs)
    have hxs : c ∉ xs := fun hm => h (List.mem_cons_of_mem x hm)
    simp [lastIndexOfChar, ih hxs, hx]

theorem lastIndexOfChar_append {c : Char} (a : List Char) {b : List Char} (h : c ∉ b) :
    lastIndexOfChar c (a ++ c :: b) = some a.length := by
  induction a with
  | nil => simp [lastIndexOfChar, lastIndexOfChar_eq_none h]
  | cons x a ih => simp [lastIndexOfChar, ih]

theorem parseNameChars_append {a b : List Char} (h : ('@' : Char) ∉ b) :
    parseNameChars (a ++ '@' :: b) = (a, b) := by
  unfold parseNameChars
  rw [lastIndexOfChar_append a h]
  have h2 : (a ++ '@' :: b).drop (a.length + 1) = b := by
    have hsp : a ++ '@' :: b = (a ++ ['@']) ++ b := by simp
    rw [hsp]
    exact List.drop_left' (by simp)
  simp [List.take_left, h2]

theorem parseNameChars_no_at {cs : List Char} (h : ('@' : Char) ∉ cs) :
    parseNameChars cs = (cs, []) := by
  unfold parseNameChars
  rw [lastIndexOfChar_eq_none h]

theorem parseName_no_at {name : String} (h : ('@' : Char) ∉ name.data) :
    parseName name = { forwarder := "", name := name } := by
  simp [parseName, parseNameChars_no_at h]

theorem lookup_single {α : Type} (k : String) (v : α) : List.lookup k [(k, v)] = some v := by
  simp [List.lookup]

theorem onMessageCall_registerFunc {V : Type} (name : String)
    (f : List V → Except ErrorWithCode V) (args : List V) (reqId : Nat) :
    onMessageCall [] [(name, registerFunc name f)] (makeCallMsg name "invoke" args reqId "")
      = match f args with
        | Except.ok v => { warns := [], sent := [IMsgRpcResp.respData reqId v] }
        | Except.error e =>
          { warns := [(some "RPC_ONCALL_ERROR", e.message)]
            sent := [IMsgRpcResp.respErr reqId e.message e.code] } := by
  simp [onMessageCall, makeCallMsg, lookup_single, registerFunc, registerImplChecked,
    checkAndInvoke, callAfterChecks, invokeMethod, anyArgsChecker, failCall, List.lookup]
  cases hf : f args with
  | ok v => rfl
  | error e => rfl



/-! ### The verified properties -/

/-- Claim C1 (amended: the registered name must contain no `'@'`, since
`callRemoteFunc` treats the part after the last `'@'` as a forwarder name):
for every function `f` registered via `registerFunc` under such a name, with
both endpoints' channels live, `callRemoteFunc` of that name from the peer
resolves with the value `f` returns on the same argument tuple, and when `f`
throws or rejects the caller's promise rejects with an error carrying the
same message and the same `code` field. -/
theorem callRemoteFunc_roundTrip_of_no_at_sign {V : Type} (name : String)
    (f : List V → Except ErrorWithCode V) (args : List V) (reqId : Nat)
    (h : ('@' : Char) ∉ name.data) :
    roundTripOutcomes name f args reqId
      = [match f args with
         | Except.ok v => RespOutcome.resolved v
         | Except.error e => RespOutcome.rejected e] := by
  have hp := parseName_no_at h
  simp only [roundTripOutcomes, callRemoteFuncMsg, hp]
  rw [onMessageCall_registerFunc]
  cases hf : f args with
  | ok v =>
    simp [onMessageResp, List.lookup, mkCallObj, anyChecker, IMsgRpcResp.reqId]
  | error e =>
    simp [onMessageResp, List.lookup, mkCallObj, anyChecker, IMsgRpcResp.reqId]

/-- Claim C1, witness. -/
theorem callRemoteFunc_roundTrip_witness :
    (('@' : Char) ∉ "f".data)
    ∧ roundTripOutcomes (V := Nat) "f" (fun _ => Except.ok 7) [] 1
        = [RespOutcome.resolved 7] :=
  ⟨by decide, callRemoteFunc_roundTrip_of_no_at_sign "f" (fun _ => Except.ok 7) [] 1 (by decide)⟩

/-- Claim C1, counterexample to the unrestricted statement: registering
`f` under the name `"a@b"` and calling `callRemoteFunc("a@b")` on a peer
with no forwarders does not deliver the call to `f` at all — the part after
the last `'@'` is parsed as a forwarder name, and the call rejects with
`RPC_UNKNOWN_FORWARD_DEST` instead of resolving with `f`'s value `7`. -/
theorem callRemoteFunc_roundTrip_fails_on_at_sign_name :
    roundTripOutcomes (V := Nat) "a@b" (fun _ => Except.ok 7) [] 1
      = [RespOutcome.rejected ⟨some "RPC_UNKNOWN_FORWARD_DEST", "Unknown forward destination"⟩]
    ∧ roundTripOutcomes (V := Nat) "a@b" (fun _ => Except.ok 7) [] 1
      ≠ [RespOutcome.resolved 7] :=
  ⟨rfl, by decide⟩

/-- Claim C2: an inbound Call or Custom envelope with `mdest` set selects
the forwarder registered under exactly that name, else the wildcard `"*"`
forwarder; a forwarder installed by `registerForwarder` hands the envelope
to its peer with `mdest` replaced by the policy fixed at registration,
except that the pass-through policy `"*"` leaves `mdest` unchanged. -/
theorem forwarder_selection_and_rewrite :
    (∀ (V : Type) (forwarders : List (String × ImplementationFwd V))
        (implMap : List (String × Implementation V)) (c : IMsgRpcCall V)
        (fwd : ImplementationFwd V),
      c.mdest ≠ "" → forwarders.lookup c.mdest = some fwd →
      onMessageCall forwarders implMap c = checkAndInvoke fwd.toImplementation c)
    ∧ (∀ (V : Type) (forwarders : List (String × ImplementationFwd V))
        (implMap : List (String × Implementation V)) (c : IMsgRpcCall V)
        (fwd : ImplementationFwd V),
      c.mdest ≠ "" → forwarders.lookup c.mdest = none → forwarders.lookup "*" = some fwd →
      onMessageCall forwarders implMap c = checkAndInvoke fwd.toImplementation c)
    ∧ (∀ (V : Type) (forwarders : List (String × ImplementationFwd V))
        (m : IMsgCustom V) (fwd : ImplementationFwd V),
      m.mdest ≠ "" → forwarders.lookup m.mdest = some fwd →
      onCustomMessage forwarders m = CustomEffect.forwarded (fwd.forwardMessage m))
    ∧ (∀ (V : Type) (forwarders : List (String × ImplementationFwd V))
        (m : IMsgCustom V) (fwd : ImplementationFwd V),
      m.mdest ≠ "" → forwarders.lookup m.mdest = none → forwarders.lookup "*" = some fwd →
      onCustomMessage forwarders m = CustomEffect.forwarded (fwd.forwardMessage m))
    ∧ (∀ (V : Type) (nm : String) (dest : IForwarderDest V) (policy : String)
        (c : IMsgRpcCall V), policy ≠ "*" →
      (registerForwarder nm dest policy).invokeImpl c
        = dest.forwardCall { c with mdest := policy })
    ∧ (∀ (V : Type) (nm : String) (dest : IForwarderDest V) (policy : String)
        (m : IMsgCustom V), policy ≠ "*" →
      (registerForwarder nm dest policy).forwardMessage m
        = dest.forwardMessage { m with mdest := policy })
    ∧ (∀ (V : Type) (nm : String) (dest : IForwarderDest V) (c : IMsgRpcCall V),
      (registerForwarder nm dest "*").invokeImpl c = dest.forwardCall c)
    ∧ (∀ (V : Type) (nm : String) (dest : IForwarderDest V) (m : IMsgCustom V),
      (registerForwarder nm dest "*").forwardMessage m = dest.forwardMessage m) := by
  refine ⟨?_, ?_, ?_, ?_, ?_, ?_, ?_, ?_⟩
  · intro V forwarders implMap c fwd h1 h2
    simp [onMessageCall, h1, h2, Option.orElse]
  · intro V forwarders implMap c fwd h1 h2 h3
    simp [onMessageCall, h1, h2, h3, Option.orElse]
  · intro V forwarders m fwd h1 h2
    simp [onCustomMessage, h1, h2, Option.orElse]
  · intro V forwarders m fwd h1 h2 h3
    simp [onCustomMessage, h1, h2, h3, Option.orElse]
  · intro V nm dest policy c hp
    simp [registerForwarder, hp]
  · intro V nm dest policy m hp
    simp [registerForwarder, hp]
  · intro V nm dest c
    simp [registerForwarder]
  · intro V nm dest m
    simp [registerForwarder]

/-- Claim C2, witness. -/
theorem forwarder_selection_and_rewrite_witness :
    (let dest : IForwarderDest Nat := ⟨fun _ => Except.ok 0, fun _ => Except.ok ()⟩
     let fwd := registerForwarder "b" dest "peer"
     let c : IMsgRpcCall Nat := { reqId := some 1, iface := "i", meth := "m", args := [], mdest := "b" }
     onMessageCall [("b", fwd)] [] c = checkAndInvoke fwd.toImplementation c
       ∧ fwd.invokeImpl c = dest.forwardCall { c with mdest := "peer" }) := by
  refine ⟨?_, ?_⟩
  · exact forwarder_selection_and_rewrite.1 Nat
      [("b", registerForwarder "b" ⟨fun _ => Except.ok 0, fun _ => Except.ok ()⟩ "peer")] []
      { reqId := some 1, iface := "i", meth := "m", args := [], mdest := "b" }
      (registerForwarder "b" ⟨fun _ => Except.ok 0, fun _ => Except.ok ()⟩ "peer")
      (by decide) (lookup_single "b" _)
  · exact forwarder_selection_and_rewrite.2.2.2.2.1 Nat "b" _ "peer" _ (by decide)

/-- Claim C3 (amended): an inbound Call with no `reqId` that passes the
forwarder/interface and method/argument checks is failed locally with a
warning of code `RPC_MISSING_REQID`, but NO `RespErr` envelope is sent back
— `_failCall` only sends when the call carries a request id, so the caller
is not notified.  Both the unchecked and the checked registration paths are
covered. -/
theorem missing_reqId_warns_and_sends_nothing :
    (∀ (V : Type) (forwarders : List (String × ImplementationFwd V))
        (implMap : List (String × Implementation V)) (call : IMsgRpcCall V)
        (impl : Implementation V),
      call.mdest = "" → implMap.lookup call.iface = some impl →
      impl.argsCheckers = none → call.reqId = none →
      onMessageCall forwarders implMap call
        = { warns := [(some "RPC_MISSING_REQID", "Missing request id")], sent := [] })
    ∧ (∀ (V : Type) (forwarders : List (String × ImplementationFwd V))
        (implMap : List (String × Implementation V)) (call : IMsgRpcCall V)
        (impl : Implementation V) (acs : List (String × Checker (List V)))
        (ac : Checker (List V)),
      call.mdest = "" → implMap.lookup call.iface = some impl →
      impl.argsCheckers = some acs → acs.lookup call.meth = some ac →
      ac call.args = none → call.reqId = none →
      onMessageCall forwarders implMap call
        = { warns := [(some "RPC_MISSING_REQID", "Missing request id")], sent := [] }) := by
  constructor
  · intro V forwarders implMap call impl hmd himpl hchk hreq
    simp [onMessageCall, hmd, himpl, checkAndInvoke, hchk, callAfterChecks, hreq, failCall]
  · intro V forwarders implMap call impl acs ac hmd himpl hchk hac hpass hreq
    simp [onMessageCall, hmd, himpl, checkAndInvoke, hchk, hac, hpass, callAfterChecks, hreq, failCall]

/-- Claim C3, witness. -/
theorem missing_reqId_warns_witness :
    onMessageCall [] [("f", registerImplUnchecked (V := Nat) "f" [])]
        { reqId := none, iface := "f", meth := "m", args := [], mdest := "" }
      = { warns := [(some "RPC_MISSING_REQID", "Missing request id")], sent := [] } :=
  missing_reqId_warns_and_sends_nothing.1 Nat []
    [("f", registerImplUnchecked "f" [])]
    { reqId := none, iface := "f", meth := "m", args := [], mdest := "" }
    (registerImplUnchecked "f" []) rfl (lookup_single "f" _) rfl rfl

/-- Claim C3, counterexample to the claim as stated: a Call with no `reqId`
addressed to a function registered with `registerFunc`, passing every check,
produces a warning with code `RPC_MISSING_REQID` and an EMPTY list of sent
envelopes — no `RespErr` goes back to the caller. -/
theorem missing_reqId_sends_nothing_example :
    onMessageCall [] [("f", registerFunc "f" (fun _ => Except.ok (0 : Nat)))]
        { reqId := none, iface := "f", meth := "invoke", args := [], mdest := "" }
      = { warns := [(some "RPC_MISSING_REQID", "Missing request id")], sent := [] }
    ∧ (onMessageCall [] [("f", registerFunc "f" (fun _ => Except.ok (0 : Nat)))]
        { reqId := none, iface := "f", meth := "invoke", args := [], mdest := "" }).sent
      = [] :=
  ⟨rfl, rfl⟩

/-- Claim C4: draining the outbound queue reads and advances the index
before each dispatch, so when sending envelope `k` throws, envelopes `0..k`
are removed, the failed envelope is never retried, and the remaining queue
is exactly the suffix after it, in original arrival order. -/
theorem processQueue_drops_failed_and_resumes {Msg ε : Type}
    (f : Msg → Except ε Unit) (pre post : List Msg) (m : Msg) (e : ε)
    (hpre : ∀ x ∈ pre, f x = Except.ok ()) (hm : f m = Except.error e) :
    processQueue f (pre ++ m :: post) = (post, some e) := by
  induction pre with
  | nil => simp [processQueue, hm]
  | cons x xs ih =>
    have hx := hpre x (List.mem_cons_self x xs)
    simp only [List.cons_append, processQueue, hx]
    exact ih (fun y hy => hpre y (List.mem_cons_of_mem x hy))

/-- Claim C4, witness. -/
theorem processQueue_drops_failed_witness :
    (∀ x ∈ [0, 1], (if x = 2 then Except.error "boom" else Except.ok ()) = Except.ok ())
    ∧ processQueue (fun n => if n = 2 then Except.error "boom" else Except.ok ()) [0, 1, 2, 3, 4]
        = ([3, 4], some "boom") :=
  ⟨by decide,
   processQueue_drops_failed_and_resumes _ [0, 1] [3, 4] 2 "boom" (by decide) (by decide)⟩

/-- Claim C5: a failing send is handled uniformly whether the user's send
function threw synchronously or returned a promise that rejected; in both
cases, when the envelope was a Call whose pending record is still present,
the pending call is rejected with an error of code `RPC_SEND_FAILED`
wrapping the underlying error's message, an `"error"` event is emitted, and
the error is rethrown out of the send site. -/
theorem send_failure_uniform_effects :
    (∀ (V : Type) (pending : List (Nat × ICallObj V)) (msg : IMessage V)
        (err : ErrorWithCode),
      sendMessageOrReject pending msg (SendOutcome.syncThrow err)
        = sendMessageOrReject pending msg (SendOutcome.asyncReject err))
    ∧ (∀ (V : Type) (pending : List (Nat × ICallObj V)) (c : IMsgRpcCall V)
        (reqId : Nat) (err : ErrorWithCode) (callObj : ICallObj V),
      c.reqId = some reqId → pending.lookup reqId = some callObj →
      sendMessageOrReject pending (IMessage.rpcCall c) (SendOutcome.syncThrow err)
        = { pending := mapDelete pending reqId
            rejectedCall := some (reqId, ⟨some "RPC_SEND_FAILED", "Send failed: " ++ err.message⟩)
            emitted := some ⟨some "RPC_SEND_FAILED", "Send failed: " ++ err.message⟩
            thrown := some ⟨some "RPC_SEND_FAILED", "Send failed: " ++ err.message⟩ }) := by
  constructor
  · intro V pending msg err
    rfl
  · intro V pending c reqId err callObj hreq hlook
    simp [sendMessageOrReject, catchMaybePromise, sendReject, hreq, hlook]

/-- Claim C5, witness. -/
theorem send_failure_uniform_witness :
    (sendMessageOrReject [(1, mkCallObj (V := Nat) 1 "f" "invoke" anyChecker)]
        (IMessage.rpcCall { reqId := some 1, iface := "f", meth := "invoke", args := [], mdest := "" })
        (SendOutcome.syncThrow ⟨none, "boom"⟩)
      = sendMessageOrReject [(1, mkCallObj (V := Nat) 1 "f" "invoke" anyChecker)]
        (IMessage.rpcCall { reqId := some 1, iface := "f", meth := "invoke", args := [], mdest := "" })
        (SendOutcome.asyncReject ⟨none, "boom"⟩))
    ∧ sendMessageOrReject [(1, mkCallObj (V := Nat) 1 "f" "invoke" anyChecker)]
        (IMessage.rpcCall { reqId := some 1, iface := "f", meth := "invoke", args := [], mdest := "" })
        (SendOutcome.syncThrow ⟨none, "boom"⟩)
      = { pending := mapDelete [(1, mkCallObj (V := Nat) 1 "f" "invoke" anyChecker)] 1
          rejectedCall := some (1, ⟨some "RPC_SEND_FAILED", "Send failed: boom"⟩)
          emitted := some ⟨some "RPC_SEND_FAILED", "Send failed: boom"⟩
          thrown := some ⟨some "RPC_SEND_FAILED", "Send failed: boom"⟩ } :=
  ⟨send_failure_uniform_effects.1 Nat _ _ _,
   send_failure_uniform_effects.2 Nat [(1, mkCallObj 1 "f" "invoke" anyChecker)]
     { reqId := some 1, iface := "f", meth := "invoke", args := [], mdest := "" }
     1 ⟨none, "boom"⟩ (mkCallObj 1 "f" "invoke" anyChecker) rfl rfl⟩

/-- Claim C6: request ids are allocated monotonically increasing starting
from 1, one fresh id per outgoing call (`_makeCallRaw` hands out the current
counter value and bumps it), and along every sequence of endpoint operations
the pending-call table never holds two entries with the same request id. -/
theorem request_ids_fresh_and_pending_nodup :
    (∀ V : Type, (initialRpcState V).nextRequestId = 1)
    ∧ (∀ (V : Type) (s : RpcState V) (iface meth : String) (c : Checker V),
        (makeCallRaw s iface meth c).2 = s.nextRequestId
        ∧ (makeCallRaw s iface meth c).1.nextRequestId = s.nextRequestId + 1)
    ∧ (∀ (V : Type) (ops : List (RpcOp V)),
        (pendingKeys (applyOps ops).pendingCalls).Nodup
        ∧ ∀ k ∈ pendingKeys (applyOps ops).pendingCalls, k < (applyOps ops).nextRequestId) := by
  refine ⟨fun V => rfl, fun V s iface meth c => ⟨rfl, rfl⟩, fun V ops => ?_⟩
  have h := applyOps_inv ops
  exact ⟨h.2, h.1⟩

/-- Claim C7: an inbound `RespData` whose data fails the pending call's
result checker rejects the caller's future with code `RPC_INVALID_RESULT`
wrapping the validator's message, removes the entry from the pending table,
and sends no message in reaction; when validation passes the future resolves
with the received data. -/
theorem respData_validation_behaviour :
    (∀ (V : Type) (pending : List (Nat × ICallObj V)) (reqId : Nat) (data : V)
        (callObj : ICallObj V) (m : String),
      pending.lookup reqId = some callObj →
      callObj.resultChecker data = some m →
      onMessageResp pending (IMsgRpcResp.respData reqId data)
        = { pending := mapDelete pending reqId
            outcome := RespOutcome.rejected
              ⟨some "RPC_INVALID_RESULT", "Implementation produced invalid result: " ++ m⟩
            sent := [] })
    ∧ (∀ (V : Type) (pending : List (Nat × ICallObj V)) (reqId : Nat) (data : V)
        (callObj : ICallObj V),
      pending.lookup reqId = some callObj →
      callObj.resultChecker data = none →
      onMessageResp pending (IMsgRpcResp.respData reqId data)
        = { pending := mapDelete pending reqId
            outcome := RespOutcome.resolved data
            sent := [] }) := by
  constructor
  · intro V pending reqId data callObj m hlook hchk
    simp [onMessageResp, IMsgRpcResp.reqId, hlook, hchk]
  · intro V pending reqId data callObj hlook hchk
    simp [onMessageResp, IMsgRpcResp.reqId, hlook, hchk]

/-- Claim C7, witness. -/
theorem respData_validation_witness :
    (onMessageResp [(1, mkCallObj 1 "i" "m" (fun v : Nat => if v = 0 then some "bad" else none))]
        (IMsgRpcResp.respData 1 0)
      = { pending := mapDelete [(1, mkCallObj 1 "i" "m" (fun v : Nat => if v = 0 then some "bad" else none))] 1
          outcome := RespOutcome.rejected
            ⟨some "RPC_INVALID_RESULT", "Implementation produced invalid result: bad"⟩
          sent := [] })
    ∧ (onMessageResp [(1, mkCallObj 1 "i" "m" (fun v : Nat => if v = 0 then some "bad" else none))]
        (IMsgRpcResp.respData 1 3)
      = { pending := mapDelete [(1, mkCallObj 1 "i" "m" (fun v : Nat => if v = 0 then some "bad" else none))] 1
          outcome := RespOutcome.resolved 3
          sent := [] }) :=
  ⟨respData_validation_behaviour.1 Nat
     [(1, mkCallObj 1 "i" "m" (fun v : Nat => if v = 0 then some "bad" else none))] 1 0
     (mkCallObj 1 "i" "m" (fun v : Nat => if v = 0 then some "bad" else none)) "bad" rfl rfl,
   respData_validation_behaviour.2 Nat
     [(1, mkCallObj 1 "i" "m" (fun v : Nat => if v = 0 then some "bad" else none))] 1 3
     (mkCallObj 1 "i" "m" (fun v : Nat => if v = 0 then some "bad" else none)) rfl rfl⟩

/-- Claim C8: in `_parseName` only the last `'@'` separates the interface
name from the forwarder name — `a ++ "@" ++ b` with no `'@'` in `b` parses
to interface `a` and forwarder `b` (so `"a@b@c"` is interface `"a@b"` via
forwarder `"c"`), and a name with no `'@'` has an empty forwarder. -/
theorem parseName_splits_at_last_at_sign :
    (∀ a b : String, ('@' : Char) ∉ b.data →
      parseName (a ++ "@" ++ b) = { forwarder := b, name := a })
    ∧ (∀ n : String, ('@' : Char) ∉ n.data →
      parseName n = { forwarder := "", name := n }) := by
  constructor
  · intro a b hb
    have hdata : (a ++ "@" ++ b).data = a.data ++ '@' :: b.data := by
      simp [String.data_append]
    simp [parseName, hdata, parseNameChars_append hb]
  · intro n hn
    exact parseName_no_at hn

/-- Claim C8, witness. -/
theorem parseName_splits_witness :
    (('@' : Char) ∉ "c".data)
    ∧ parseName ("a@b" ++ "@" ++ "c") = { forwarder := "c", name := "a@b" }
    ∧ (('@' : Char) ∉ "plain".data)
    ∧ parseName "plain" = { forwarder := "", name := "plain" } :=
  ⟨by decide, parseName_splits_at_last_at_sign.1 "a@b" "c" (by decide),
   by decide, parseName_splits_at_last_at_sign.2 "plain" (by decide)⟩

/-- Claim C9 (amended: the two halves are the other way around, and the code
is `RPC_UNKNOWN_METHOD`): when a Call names a method the target does not
provide, an implementation registered WITH a checker rejects it at argument
validation with a `RespErr` of code `RPC_UNKNOWN_METHOD`, while an
implementation registered WITHOUT a checker attempts the invocation and the
resulting error — for a missing method a `TypeError` with no `code` field —
is sent back verbatim as the remote error. -/
theorem missing_method_checked_vs_unchecked :
    (∀ (V : Type) (forwarders : List (String × ImplementationFwd V))
        (implMap : List (String × Implementation V)) (call : IMsgRpcCall V)
        (impl : Implementation V) (acs : List (String × Checker (List V))),
      call.mdest = "" → implMap.lookup call.iface = some impl →
      impl.argsCheckers = some acs → acs.lookup call.meth = none →
      onMessageCall forwarders implMap call
        = failCall call (some "RPC_UNKNOWN_METHOD") "Unknown method" none)
    ∧ (∀ (V : Type) (forwarders : List (String × ImplementationFwd V))
        (implMap : List (String × Implementation V)) (call : IMsgRpcCall V)
        (name : String) (methods : List (String × (List V → Except ErrorWithCode V)))
        (reqId : Nat),
      call.mdest = "" →
      implMap.lookup call.iface = some (registerImplUnchecked name methods) →
      methods.lookup call.meth = none → call.reqId = some reqId →
      onMessageCall forwarders implMap call
        = { warns := [(some "RPC_ONCALL_ERROR", "impl[call.meth] is not a function")]
            sent := [IMsgRpcResp.respErr reqId "impl[call.meth] is not a function" none] }) := by
  constructor
  · intro V forwarders implMap call impl acs hmd himpl hchk hac
    simp [onMessageCall, hmd, himpl, checkAndInvoke, hchk, hac]
  · intro V forwarders implMap call name methods reqId hmd himpl hmeth hreq
    simp [onMessageCall, hmd, himpl, registerImplUnchecked, checkAndInvoke, callAfterChecks,
      hreq, invokeMethod, hmeth, failCall]

/-- Claim C9, witness. -/
theorem missing_method_checked_vs_unchecked_wit :
    (onMessageCall [] [("calc", registerImplChecked (V := Nat) "calc"
          [("add", fun _ => Except.ok 0)] [("add", anyArgsChecker)])]
        { reqId := some 7, iface := "calc", meth := "additionify", args := [], mdest := "" }
      = failCall { reqId := some 7, iface := "calc", meth := "additionify", args := [], mdest := "" }
          (some "RPC_UNKNOWN_METHOD") "Unknown method" none)
    ∧ (onMessageCall [] [("calc", registerImplUnchecked (V := Nat) "calc"
          [("add", fun _ => Except.ok 0)])]
        { reqId := some 7, iface := "calc", meth := "additionify", args := [], mdest := "" }
      = { warns := [(some "RPC_ONCALL_ERROR", "impl[call.meth] is not a function")]
          sent := [IMsgRpcResp.respErr 7 "impl[call.meth] is not a function" none] }) :=
  ⟨missing_method_checked_vs_unchecked.1 Nat []
      [("calc", registerImplChecked "calc" [("add", fun _ => Except.ok 0)] [("add", anyArgsChecker)])]
      { reqId := some 7, iface := "calc", meth := "additionify", args := [], mdest := "" }
      (registerImplChecked "calc" [("add", fun _ => Except.ok 0)] [("add", anyArgsChecker)])
      [("add", anyArgsChecker)] rfl (lookup_single "calc" _) rfl rfl,
   missing_method_checked_vs_unchecked.2 Nat []
      [("calc", registerImplUnchecked "calc" [("add", fun _ => Except.ok 0)])]
      { reqId := some 7, iface := "calc", meth := "additionify", args := [], mdest := "" }
      "calc" [("add", fun _ => Except.ok 0)] 7 rfl (lookup_single "calc" _) rfl rfl⟩

/-- Claim C9, counterexample to the claim as stated: an unchecked
implementation missing the called method does NOT reply with a remote error
of code `UNKNOWN_METHOD` — the reply is the invocation `TypeError` whose
`code` is absent. -/
theorem unchecked_missing_method_not_unknown_method_code :
    (onMessageCall [] [("calc", registerImplUnchecked (V := Nat) "calc"
          [("add", fun _ => Except.ok 0)])]
        { reqId := some 7, iface := "calc", meth := "additionify", args := [], mdest := "" }).sent
      = [IMsgRpcResp.respErr 7 "impl[call.meth] is not a function" none]
    ∧ (onMessageCall [] [("calc", registerImplUnchecked (V := Nat) "calc"
          [("add", fun _ => Except.ok 0)])]
        { reqId := some 7, iface := "calc", meth := "additionify", args := [], mdest := "" }).sent
      ≠ [IMsgRpcResp.respErr 7 "Unknown method" (some "RPC_UNKNOWN_METHOD")] :=
  ⟨rfl, by decide⟩

/-- Claim C10: `registerForwarder` called without an explicit policy
defaults it to `""` — every forwarded envelope is delivered locally at the
peer (its `mdest` is cleared) — except when the forwarder's name is `"*"`,
in which case the policy defaults to `"*"` and forwarded envelopes keep
their original `mdest` unchanged. -/
theorem registerForwarder_default_policy :
    defaultFwdPolicy "*" = "*"
    ∧ (∀ nm : String, nm ≠ "*" → defaultFwdPolicy nm = "")
    ∧ (∀ (V : Type) (nm : String) (dest : IForwarderDest V) (c : IMsgRpcCall V),
        nm ≠ "*" →
        (registerForwarder nm dest (defaultFwdPolicy nm)).invokeImpl c
          = dest.forwardCall { c with mdest := "" })
    ∧ (∀ (V : Type) (nm : String) (dest : IForwarderDest V) (m : IMsgCustom V),
        nm ≠ "*" →
        (registerForwarder nm dest (defaultFwdPolicy nm)).forwardMessage m
          = dest.forwardMessage { m with mdest := "" })
    ∧ (∀ (V : Type) (dest : IForwarderDest V) (c : IMsgRpcCall V),
        (registerForwarder "*" dest (defaultFwdPolicy "*")).invokeImpl c = dest.forwardCall c)
    ∧ (∀ (V : Type) (dest : IForwarderDest V) (m : IMsgCustom V),
        (registerForwarder "*" dest (defaultFwdPolicy "*")).forwardMessage m
          = dest.forwardMessage m) := by
  refine ⟨rfl, ?_, ?_, ?_, ?_, ?_⟩
  · intro nm h
    simp [defaultFwdPolicy, h]
  · intro V nm dest c h
    simp [defaultFwdPolicy, registerForwarder, h]
  · intro V nm dest m h
    simp [defaultFwdPolicy, registerForwarder, h]
  · intro V dest c
    simp [defaultFwdPolicy, registerForwarder]
  · intro V dest m
    simp [defaultFwdPolicy, registerForwarder]

/-- Claim C10, witness. -/
theorem registerForwarder_default_policy_witness :
    (let dest : IForwarderDest Nat := ⟨fun _ => Except.ok 0, fun _ => Except.ok ()⟩
     let c : IMsgRpcCall Nat := { reqId := some 1, iface := "i", meth := "m", args := [], mdest := "b" }
     ("b" : String) ≠ "*"
       ∧ (registerForwarder "b" dest (defaultFwdPolicy "b")).invokeImpl c
           = dest.forwardCall { c with mdest := "" }
       ∧ (registerForwarder "*" dest (defaultFwdPolicy "*")).invokeImpl c
           = dest.forwardCall c) := by
  refine ⟨by decide, ?_, ?_⟩
  · exact registerForwarder_default_policy.2.2.1 Nat "b" _ _ (by decide)
  · exact registerForwarder_default_policy.2.2.2.2.1 Nat _ _


end GrainRpc
